import Mathlib

/-!
# comeonin `c_src/main.c`: the bcrypt self-test harness

`main.c` builds three fixed `char` arrays, calls the external function
`bcrypt` once, asserts that its status is zero, compares the output buffer
with a reference string using `strcmp`, and asserts that the comparison is
zero.

The embedding is shallow:

* a `char` array is the list of its bytes (each byte a `Nat`, the value of
  the `unsigned char`), the terminating NUL of a string literal included;
* `bcrypt` is not defined in `main.c` (only declared `extern`), so `main`
  takes its behaviour as a parameter: a function from the passphrase, the
  salt, the contents of the output buffer before the call and the capacity
  to the returned status and the contents of the output buffer after the
  call;
* `strcmp` is the C library function, modelled byte by byte on the two
  arrays; a read past the end of either array has no defined result
  (`none`);
* `assert` with a false condition ends the run (`Exit.assertFailed`, with
  the source line of the assertion);
* a run of `main` is its exit together with the external calls it made, in
  order.
-/

namespace Comeonin

/-! ## Data model -/

/-- The bytes with which a C string literal initialises a `char[]`: the
characters of the literal followed by the terminating NUL. -/
def cLiteral (s : String) : List Nat :=
  s.toList.map Char.toNat ++ [0]

/-- The character codes of a text, without a terminator. -/
def chars (s : String) : List Nat :=
  s.toList.map Char.toNat

/-- Array `char password[] = "C'est bon, la vie!";` (main.c line 12). -/
def password : List Nat := cLiteral "C'est bon, la vie!"

/-- Array `char salt[] = "$2b$16$cbo7LZ.wxgW4yxAA5Vqlv.";` (main.c line 13). -/
def salt : List Nat := cLiteral "$2b$16$cbo7LZ.wxgW4yxAA5Vqlv."

/-- Array `char hash[] = "$2b$16$cbo7LZ.wxgW4yxAA5Vqlv.fwGuLEa9PGOV.Fw8FPup2nicB6mHa0q";`
(main.c line 14). -/
def hash : List Nat :=
  cLiteral "$2b$16$cbo7LZ.wxgW4yxAA5Vqlv.fwGuLEa9PGOV.Fw8FPup2nicB6mHa0q"

/-- Value of `sizeof(encrypted)` for `char encrypted[61];` (main.c line 15). -/
def sizeofEncrypted : Nat := 61

/-! ## C strings inside byte arrays -/

/-- The NUL-terminated string stored at the start of an array: the bytes
before the first NUL, or `none` when the array holds no NUL. -/
def cstring : List Nat → Option (List Nat)
  | [] => none
  | c :: s => if c = 0 then some [] else (cstring s).map (fun t => c :: t)

/-- C library `strlen` on an array: the number of bytes before the first
NUL; `none` when there is no NUL inside the array. -/
def strlen (s : List Nat) : Option Nat :=
  (cstring s).map List.length

/-- The bytes of an array up to and including its first NUL (the whole array
when it holds no NUL). -/
def uptoNul : List Nat → List Nat
  | [] => []
  | c :: s => if c = 0 then [0] else c :: uptoNul s

/-- C library `strcmp(s1, s2)` on two arrays. Bytes are compared as
`unsigned char` from index 0; at the first index where they differ the
result is their difference (only its being non-zero is observed by `main`),
at a common NUL the result is 0. Reading past the end of either array is
undefined: `none`. -/
def strcmp : List Nat → List Nat → Option Int
  | a :: s1, b :: s2 =>
    if a ≠ b then some ((a : Int) - (b : Int))
    else if a = 0 then some 0
    else strcmp s1 s2
  | _, _ => none

/-- Membership of a byte in the radix-64 alphabet `./A-Za-z0-9`. -/
def isRadix64 (c : Nat) : Bool :=
  c == '.'.toNat || c == '/'.toNat
    || ('A'.toNat ≤ c && c ≤ 'Z'.toNat)
    || ('a'.toNat ≤ c && c ≤ 'z'.toNat)
    || ('0'.toNat ≤ c && c ≤ '9'.toNat)

/-- Membership of a byte in the decimal digits `0-9`. -/
def isDigit (c : Nat) : Bool :=
  '0'.toNat ≤ c && c ≤ '9'.toNat

/-! ## The program -/

/-- Behaviour of `extern int bcrypt(const char *, const char *, char *, size_t)`
(main.c line 6), which `main.c` declares and does not define: from the
passphrase array, the salt array, the contents of the output buffer before
the call and the capacity, to the returned status and the contents of the
output buffer after the call. -/
abbrev Bcrypt := List Nat → List Nat → List Nat → Nat → Int × List Nat

/-- An external call made by `main`, with the values passed. -/
inductive Call where
  | bcrypt (pass : List Nat) (salt : List Nat) (size : Nat)
  | strcmp (s1 : List Nat) (s2 : List Nat)
  deriving DecidableEq, Repr

/-- How a run of `main` ends. -/
inductive Exit where
  /-- Statement `return v;`. -/
  | returned (v : Int)
  /-- An `assert` at the given source line found its condition false. -/
  | assertFailed (line : Nat)
  /-- A read outside an array. -/
  | undefined
  deriving DecidableEq, Repr

/-- A run of `main`: how it ended and the external calls it made, in order. -/
structure Run where
  exit : Exit
  calls : List Call
  deriving DecidableEq, Repr

/-- Function `main` of main.c (lines 8-24). `bcrypt` is the behaviour of the
external function, `encrypted` the indeterminate initial contents of
`char encrypted[61]`; `argc` and `argv` are not used by the body. -/
def main (bcrypt : Bcrypt) (argc : Int) (argv : Nat) (encrypted : List Nat) : Run :=
  -- rc = bcrypt(password, salt, encrypted, sizeof(encrypted));
  let r := bcrypt password salt encrypted sizeofEncrypted
  let rc := r.1
  let encrypted := r.2
  let call1 := Call.bcrypt password salt sizeofEncrypted
  -- assert(rc == 0);
  if rc ≠ 0 then ⟨Exit.assertFailed 18, [call1]⟩
  else
    -- rc = strcmp(hash, encrypted);
    let call2 := Call.strcmp hash encrypted
    match strcmp hash encrypted with
    | none => ⟨Exit.undefined, [call1, call2]⟩
    | some rc =>
      -- assert(rc == 0);
      if rc ≠ 0 then ⟨Exit.assertFailed 21, [call1, call2]⟩
      -- return 0;
      else ⟨Exit.returned 0, [call1, call2]⟩

/-- A sample behaviour for `bcrypt`: status 0 and the reference array stored
in the buffer. -/
def bcryptStoresHash : Bcrypt := fun _ _ _ _ => (0, hash)

/-- A sample behaviour for `bcrypt`: status 0 and the reference array with
its last character changed (`q` to `r`) stored in the buffer. -/
def bcryptStoresOther : Bcrypt := fun _ _ _ _ => (0, hash.take 59 ++ ['r'.toNat, 0])

/-- A sample behaviour for `bcrypt`: status 0 and the reference array stored
in the buffer, with every byte after the NUL kept from before the call. -/
def bcryptKeepsTail : Bcrypt := fun _ _ e _ => (0, hash ++ e.drop hash.length)

/-- A sample behaviour for `bcrypt`: status 0 and a buffer of 60 bytes
holding the first 59 characters of the reference string and a NUL. -/
def bcryptTruncates : Bcrypt := fun _ _ _ _ => (0, hash.take 59 ++ [0])

/-- Sixty-one bytes of value 7: sample initial contents of `encrypted`. -/
def sevens : List Nat := List.replicate 61 7

/-! ## Lemmas on `strcmp`, `cstring` and `uptoNul` -/

theorem strcmp_uptoNul (s e : List Nat) : strcmp s (uptoNul e) = strcmp s e := by
  induction e generalizing s with
  | nil => rfl
  | cons c t ih =>
    cases s with
    | nil => simp [strcmp]
    | cons a s1 =>
      by_cases hc : c = 0
      · subst hc
        by_cases ha : a = 0
        · simp [uptoNul, strcmp, ha]
        · simp [uptoNul, strcmp, ha]
      · by_cases hac : a = c
        · subst hac
          simp [uptoNul, strcmp, hc, ih]
        · simp [uptoNul, strcmp, hc, hac]

theorem strcmp_eq_zero_iff (cs rest e : List Nat) (h : ∀ c ∈ cs, c ≠ 0) :
    strcmp (cs ++ 0 :: rest) e = some 0 ↔ ∃ t, e = cs ++ 0 :: t := by
  induction cs generalizing e with
  | nil =>
    cases e with
    | nil => simp [strcmp]
    | cons b t =>
      by_cases hb : b = 0
      · simp [strcmp, hb]
      · have hb2 : ¬ (0 = b) := fun h0 => hb h0.symm
        simp [strcmp, hb, hb2]
  | cons a cs ih =>
    have ha : a ≠ 0 := h a (by simp)
    have hcs : ∀ c ∈ cs, c ≠ 0 := fun c hc => h c (by simp [hc])
    cases e with
    | nil => simp [strcmp]
    | cons b t =>
      by_cases hab : a = b
      · subst hab
        simp [strcmp, ha, ih t hcs]
      · have hab2 : ¬ (b = a) := fun h0 => hab h0.symm
        simp [strcmp, hab, hab2]
        omega

theorem cstring_eq_some_iff (e cs : List Nat) :
    cstring e = some cs ↔ (∀ c ∈ cs, c ≠ 0) ∧ ∃ t, e = cs ++ 0 :: t := by
  induction e generalizing cs with
  | nil => simp [cstring]
  | cons b t ih =>
    by_cases hb : b = 0
    · subst hb
      cases cs with
      | nil => simp [cstring]
      | cons a cs1 =>
        simp [cstring]
        intro h1 _ h2
        exact absurd h2.symm h1
    · cases cs with
      | nil =>
        simp [cstring, hb]
      | cons a cs1 =>
        simp only [cstring, hb, if_false, Option.map_eq_some', List.cons.injEq,
          List.cons_append, List.mem_cons, forall_eq_or_imp]
        constructor
        · rintro ⟨u, hu, hba, rfl⟩
          subst hba
          obtain ⟨h1, w, hw⟩ := (ih u).1 hu
          exact ⟨⟨hb, h1⟩, w, rfl, hw⟩
        · rintro ⟨⟨_, h1⟩, w, hba, hw⟩
          exact ⟨cs1, (ih cs1).2 ⟨h1, w, hw⟩, hba, rfl⟩

theorem strcmp_isSome (s e : List Nat) (h0 : 0 ∈ s) (hlen : s.length ≤ e.length) :
    (strcmp s e).isSome = true := by
  induction s generalizing e with
  | nil => simp at h0
  | cons a s1 ih =>
    cases e with
    | nil => simp at hlen
    | cons b t =>
      by_cases hab : a = b
      · subst hab
        by_cases ha : a = 0
        · simp [strcmp, ha]
        · have h1 : 0 ∈ s1 := by
            rcases List.mem_cons.1 h0 with h | h
            · exact absurd h.symm ha
            · exact h
          have h2 : s1.length ≤ t.length := by simpa using hlen
          simpa [strcmp, ha] using ih t h1 h2
      · simp [strcmp, hab]

theorem hash_eq : hash = hash.take 60 ++ 0 :: [] := by decide

theorem hash_chars_ne_zero : ∀ c ∈ hash.take 60, c ≠ 0 := by decide

theorem cstring_hash : cstring hash = some (hash.take 60) := by decide

theorem strcmp_hash_eq_zero_iff (e : List Nat) :
    strcmp hash e = some 0 ↔ ∃ t, e = hash ++ t := by
  have h := strcmp_eq_zero_iff (hash.take 60) [] e hash_chars_ne_zero
  rw [← hash_eq] at h
  rw [h]
  constructor
  · rintro ⟨t, ht⟩
    refine ⟨t, ?_⟩
    rw [ht]
    conv_rhs => rw [hash_eq]
    simp
  · rintro ⟨t, ht⟩
    refine ⟨t, ?_⟩
    rw [ht]
    conv_lhs => rw [hash_eq]
    simp

theorem strcmp_hash_eq_zero_iff_cstring (e : List Nat) :
    strcmp hash e = some 0 ↔ cstring e = cstring hash := by
  rw [cstring_hash, cstring_eq_some_iff, ← strcmp_eq_zero_iff (hash.take 60) [] e hash_chars_ne_zero,
    ← hash_eq]
  constructor
  · intro h; exact ⟨hash_chars_ne_zero, h⟩
  · intro h; exact h.2

theorem main_exit_returned_iff (bcrypt : Bcrypt) (argc : Int) (argv : Nat)
    (encrypted : List Nat) (v : Int) :
    (main bcrypt argc argv encrypted).exit = Exit.returned v ↔
      v = 0 ∧ (bcrypt password salt encrypted sizeofEncrypted).1 = 0 ∧
        strcmp hash (bcrypt password salt encrypted sizeofEncrypted).2 = some 0 := by
  by_cases hrc : (bcrypt password salt encrypted sizeofEncrypted).1 = 0
  · cases hs : strcmp hash (bcrypt password salt encrypted sizeofEncrypted).2 with
    | none => simp [main, hrc, hs]
    | some rc =>
      by_cases h0 : rc = 0
      · simp [main, hrc, hs, h0, eq_comm]
      · simp [main, hrc, hs, h0]
  · simp [main, hrc]

theorem main_of_status_ne_zero (bcrypt : Bcrypt) (argc : Int) (argv : Nat)
    (encrypted : List Nat)
    (hrc : (bcrypt password salt encrypted sizeofEncrypted).1 ≠ 0) :
    main bcrypt argc argv encrypted =
      ⟨Exit.assertFailed 18, [Call.bcrypt password salt sizeofEncrypted]⟩ := by
  simp [main, hrc]

theorem main_of_strcmp_ne_zero (bcrypt : Bcrypt) (argc : Int) (argv : Nat)
    (encrypted : List Nat)
    (hrc : (bcrypt password salt encrypted sizeofEncrypted).1 = 0)
    (hsize : (bcrypt password salt encrypted sizeofEncrypted).2.length = sizeofEncrypted)
    (hne : strcmp hash (bcrypt password salt encrypted sizeofEncrypted).2 ≠ some 0) :
    main bcrypt argc argv encrypted =
      ⟨Exit.assertFailed 21, [Call.bcrypt password salt sizeofEncrypted,
        Call.strcmp hash (bcrypt password salt encrypted sizeofEncrypted).2]⟩ := by
  have hsome := strcmp_isSome hash (bcrypt password salt encrypted sizeofEncrypted).2
    (by decide) (by rw [hsize]; decide)
  cases hs : strcmp hash (bcrypt password salt encrypted sizeofEncrypted).2 with
  | none => rw [hs] at hsome; simp at hsome
  | some rc =>
    have h0 : rc ≠ 0 := by
      intro h0
      apply hne
      rw [hs, h0]
    simp [main, hrc, hs, h0]

theorem main_of_strcmp_zero (bcrypt : Bcrypt) (argc : Int) (argv : Nat)
    (encrypted : List Nat)
    (hrc : (bcrypt password salt encrypted sizeofEncrypted).1 = 0)
    (hcmp : strcmp hash (bcrypt password salt encrypted sizeofEncrypted).2 = some 0) :
    main bcrypt argc argv encrypted =
      ⟨Exit.returned 0, [Call.bcrypt password salt sizeofEncrypted,
        Call.strcmp hash (bcrypt password salt encrypted sizeofEncrypted).2]⟩ := by
  simp [main, hrc, hcmp]

theorem main_exit_congr (b1 b2 : Bcrypt) (argc : Int) (argv : Nat) (e1 e2 : List Nat)
    (hrc : (b1 password salt e1 sizeofEncrypted).1 = (b2 password salt e2 sizeofEncrypted).1)
    (hcmp : strcmp hash (b1 password salt e1 sizeofEncrypted).2 =
      strcmp hash (b2 password salt e2 sizeofEncrypted).2) :
    (main b1 argc argv e1).exit = (main b2 argc argv e2).exit := by
  by_cases h : (b2 password salt e2 sizeofEncrypted).1 = 0
  · cases hs : strcmp hash (b2 password salt e2 sizeofEncrypted).2 with
    | none => simp [main, hrc, hcmp, h, hs]
    | some rc =>
      by_cases h0 : rc = 0
      · simp [main, hrc, hcmp, h, hs, h0]
      · simp [main, hrc, hcmp, h, hs, h0]
  · simp [main, hrc, h]

theorem strcmp_hash_eq_zero_iff_bytes (e : List Nat) :
    strcmp hash e = some 0 ↔ e.take 60 = hash.take 60 ∧ e[60]? = some 0 := by
  rw [strcmp_hash_eq_zero_iff]
  constructor
  · rintro ⟨t, rfl⟩
    constructor
    · exact List.take_append_of_le_length (by decide)
    · rw [List.getElem?_append_left (by decide)]
      decide
  · rintro ⟨htake, hget⟩
    obtain ⟨hlt, h60⟩ := List.getElem?_eq_some.1 hget
    refine ⟨e.drop 61, ?_⟩
    have hsplit := List.take_append_drop 60 e
    rw [List.drop_eq_getElem_cons hlt, h60, htake] at hsplit
    nth_rewrite 1 [← hsplit]
    conv_rhs => rw [hash_eq]
    simp

theorem main_calls_head (bcrypt : Bcrypt) (argc : Int) (argv : Nat) (encrypted : List Nat) :
    (main bcrypt argc argv encrypted).calls.head? =
      some (Call.bcrypt password salt sizeofEncrypted) := by
  by_cases hrc : (bcrypt password salt encrypted sizeofEncrypted).1 = 0
  · cases hs : strcmp hash (bcrypt password salt encrypted sizeofEncrypted).2 with
    | none => simp [main, hrc, hs]
    | some rc =>
      by_cases h0 : rc = 0
      · simp [main, hrc, hs, h0]
      · simp [main, hrc, hs, h0]
  · simp [main, hrc]

/-! ## Claims -/

/-- C2: fail-fast outcome of `main`, for every behaviour of the external
`bcrypt` that leaves the 61 bytes of `encrypted` in some state. `main`
returns 0 exactly when the status of `bcrypt` is 0 and the NUL-terminated
string in the buffer is the reference string; a non-zero status fails the
assertion of line 18 after the single call of `bcrypt` (no `strcmp` call is
made); status 0 with a different string fails the assertion of line 21; and
`main` returns no value other than 0. -/
theorem main_fail_fast (bcrypt : Bcrypt) (argc : Int) (argv : Nat) (encrypted : List Nat)
    (hsize : (bcrypt password salt encrypted sizeofEncrypted).2.length = sizeofEncrypted) :
    ((main bcrypt argc argv encrypted).exit = Exit.returned 0 ↔
      (bcrypt password salt encrypted sizeofEncrypted).1 = 0 ∧
        cstring (bcrypt password salt encrypted sizeofEncrypted).2 = cstring hash) ∧
    ((bcrypt password salt encrypted sizeofEncrypted).1 ≠ 0 →
      main bcrypt argc argv encrypted =
        ⟨Exit.assertFailed 18, [Call.bcrypt password salt sizeofEncrypted]⟩) ∧
    ((bcrypt password salt encrypted sizeofEncrypted).1 = 0 →
      cstring (bcrypt password salt encrypted sizeofEncrypted).2 ≠ cstring hash →
      main bcrypt argc argv encrypted =
        ⟨Exit.assertFailed 21, [Call.bcrypt password salt sizeofEncrypted,
          Call.strcmp hash (bcrypt password salt encrypted sizeofEncrypted).2]⟩) ∧
    (∀ v, (main bcrypt argc argv encrypted).exit = Exit.returned v → v = 0) := by
  refine ⟨?_, ?_, ?_, ?_⟩
  · rw [main_exit_returned_iff, strcmp_hash_eq_zero_iff_cstring]
    simp
  · exact main_of_status_ne_zero bcrypt argc argv encrypted
  · intro hrc hne
    apply main_of_strcmp_ne_zero bcrypt argc argv encrypted hrc hsize
    rw [Ne, strcmp_hash_eq_zero_iff_cstring]
    exact hne
  · intro v hv
    exact ((main_exit_returned_iff bcrypt argc argv encrypted v).1 hv).1

/-- Witness for C2: a `bcrypt` that reports success and stores a string
differing from the reference in its last character makes `main` stop at the
assertion of line 21. -/
theorem main_fail_fast_witness :
    (bcryptStoresOther password salt sevens sizeofEncrypted).2.length = sizeofEncrypted ∧
    main bcryptStoresOther 1 0 sevens =
      ⟨Exit.assertFailed 21, [Call.bcrypt password salt sizeofEncrypted,
        Call.strcmp hash (bcryptStoresOther password salt sevens sizeofEncrypted).2]⟩ :=
  ⟨by decide,
    (main_fail_fast bcryptStoresOther 1 0 sevens (by decide)).2.2.1 (by decide) (by decide)⟩

/-- C6: shape of the salt literal. The string in `salt` has 29 characters:
the scheme identifier `$2b$`, the two decimal digits `16`, a `$`, and then
22 characters of the alphabet `./A-Za-z0-9`; 22 is the least number of
6-bit characters that hold 16 bytes (128 bits). -/
theorem salt_shape :
    strlen salt = some 29 ∧
    salt = chars "$2b$" ++ chars "16" ++ chars "$" ++ (salt.drop 7).take 22 ++ [0] ∧
    (chars "16").length = 2 ∧ (chars "16").all isDigit = true ∧
    ((salt.drop 7).take 22).length = 22 ∧
    ((salt.drop 7).take 22).all isRadix64 = true ∧
    (8 * 16 + 5) / 6 = 22 ∧ 6 * 21 < 8 * 16 ∧ 8 * 16 ≤ 6 * 22 := by
  decide

/-- C7: the reference string extends the salt. The first 29 characters of
`hash` are the string in `salt`, they are followed by 31 characters of the
alphabet `./A-Za-z0-9` and the NUL, and the string has 60 characters. -/
theorem hash_extends_salt :
    cstring salt = some (salt.take 29) ∧
    hash.take 29 = salt.take 29 ∧
    hash = salt.take 29 ++ (hash.drop 29).take 31 ++ [0] ∧
    ((hash.drop 29).take 31).length = 31 ∧
    ((hash.drop 29).take 31).all isRadix64 = true ∧
    strlen hash = some 60 := by
  decide

/-- C8: exact buffer sizing. The capacity `main` passes to `bcrypt` is
`sizeof(encrypted)` = 61, the length of the reference string (60) plus one
for the NUL. A run in which `bcrypt` reports success and leaves the 61 bytes
of `hash` in the buffer fills the buffer exactly and returns 0 after both
calls; a run in which the buffer holds 60 bytes or fewer cannot have the
reference string with its terminator in it, and `main` does not return:
whatever `bcrypt` reports, the run ends at an assertion or in a read outside
the array. -/
theorem exact_buffer_sizing (bcrypt fits : Bcrypt) (argc : Int) (argv : Nat)
    (encrypted : List Nat)
    (hcap : (bcrypt password salt encrypted sizeofEncrypted).2.length ≤ 60)
    (hrc : (fits password salt encrypted sizeofEncrypted).1 = 0)
    (hfit : (fits password salt encrypted sizeofEncrypted).2 = hash) :
    (main bcrypt argc argv encrypted).calls.head? = some (Call.bcrypt password salt 61) ∧
    sizeofEncrypted = 61 ∧ strlen hash = some 60 ∧ sizeofEncrypted = 60 + 1 ∧
    (fits password salt encrypted sizeofEncrypted).2.length = sizeofEncrypted ∧
    main fits argc argv encrypted =
      ⟨Exit.returned 0, [Call.bcrypt password salt 61, Call.strcmp hash hash]⟩ ∧
    ¬ hash <+: (bcrypt password salt encrypted sizeofEncrypted).2 ∧
    (∀ v, (main bcrypt argc argv encrypted).exit ≠ Exit.returned v) := by
  have hpre : ¬ hash <+: (bcrypt password salt encrypted sizeofEncrypted).2 := by
    intro h
    have hl := h.length_le
    have h61 : hash.length = 61 := by decide
    omega
  refine ⟨main_calls_head bcrypt argc argv encrypted, by decide, by decide, by decide,
    ?_, ?_, hpre, ?_⟩
  · rw [hfit]
    decide
  · have hs : strcmp hash (fits password salt encrypted sizeofEncrypted).2 = some 0 := by
      rw [hfit]
      decide
    have hrun := main_of_strcmp_zero fits argc argv encrypted hrc hs
    rw [hfit] at hrun
    exact hrun
  · intro v hv
    obtain ⟨t, ht⟩ :=
      (strcmp_hash_eq_zero_iff _).1 ((main_exit_returned_iff bcrypt argc argv encrypted v).1 hv).2.2
    exact hpre ⟨t, ht.symm⟩

/-- Witness for C8: a `bcrypt` that reports success and leaves only 60 bytes,
the first 59 characters of the reference string and a NUL, next to one that
leaves the whole reference array. The first run stops at the assertion of
line 21, the second returns 0. -/
theorem exact_buffer_sizing_witness :
    (bcryptTruncates password salt sevens sizeofEncrypted).2.length ≤ 60 ∧
    (bcryptStoresHash password salt sevens sizeofEncrypted).1 = 0 ∧
    (bcryptStoresHash password salt sevens sizeofEncrypted).2 = hash ∧
    (main bcryptTruncates 1 0 sevens).exit = Exit.assertFailed 21 ∧
    (main bcryptStoresHash 1 0 sevens).exit = Exit.returned 0 ∧
    (∀ v, (main bcryptTruncates 1 0 sevens).exit ≠ Exit.returned v) :=
  ⟨by decide, by decide, by decide, by decide, by decide,
    (exact_buffer_sizing bcryptTruncates bcryptStoresHash 1 0 sevens
      (by decide) (by decide) (by decide)).2.2.2.2.2.2.2⟩

/-- C9: comparison scope. When the assertion of line 21 is reached (status
0), the exit of `main` depends only on the bytes of `encrypted` up to and
including the first NUL: two behaviours of `bcrypt` whose buffers agree on
that prefix give the same exit; and `main` returns 0 exactly when bytes
0..59 of `encrypted` are the 60 characters of the reference string and byte
60 is NUL. -/
theorem comparison_scope (b1 b2 : Bcrypt) (argc : Int) (argv : Nat) (encrypted : List Nat)
    (h1 : (b1 password salt encrypted sizeofEncrypted).1 = 0)
    (h2 : (b2 password salt encrypted sizeofEncrypted).1 = 0)
    (hpre : uptoNul (b1 password salt encrypted sizeofEncrypted).2 =
      uptoNul (b2 password salt encrypted sizeofEncrypted).2) :
    (main b1 argc argv encrypted).exit = (main b2 argc argv encrypted).exit ∧
    ((main b1 argc argv encrypted).exit = Exit.returned 0 ↔
      (b1 password salt encrypted sizeofEncrypted).2.take 60 = hash.take 60 ∧
        (b1 password salt encrypted sizeofEncrypted).2[60]? = some 0) := by
  constructor
  · apply main_exit_congr
    · rw [h1, h2]
    · rw [← strcmp_uptoNul hash (b1 password salt encrypted sizeofEncrypted).2,
        ← strcmp_uptoNul hash (b2 password salt encrypted sizeofEncrypted).2, hpre]
  · rw [main_exit_returned_iff, strcmp_hash_eq_zero_iff_bytes]
    simp [h1]

/-- Witness for C9: a `bcrypt` that stores exactly the reference array and
one that stores it in front of whatever followed in memory give the same
exit. -/
theorem comparison_scope_witness :
    uptoNul (bcryptStoresHash password salt (sevens ++ sevens) sizeofEncrypted).2 =
      uptoNul (bcryptKeepsTail password salt (sevens ++ sevens) sizeofEncrypted).2 ∧
    (main bcryptStoresHash 1 0 (sevens ++ sevens)).exit =
      (main bcryptKeepsTail 1 0 (sevens ++ sevens)).exit :=
  ⟨by decide,
    (comparison_scope bcryptStoresHash bcryptKeepsTail 1 0 (sevens ++ sevens)
      (by decide) (by decide) (by decide)).1⟩

/-! ## Further properties of `main` -/

/-- The comparison of line 20 stays inside `encrypted`: whatever 61 bytes
`bcrypt` leaves in the buffer, with or without a NUL among them, `strcmp`
stops at or before index 60, so no run of `main` ends in a read outside the
array. -/
theorem main_reads_within_encrypted (bcrypt : Bcrypt) (argc : Int) (argv : Nat)
    (encrypted : List Nat)
    (hsize : (bcrypt password salt encrypted sizeofEncrypted).2.length = sizeofEncrypted) :
    (main bcrypt argc argv encrypted).exit ≠ Exit.undefined := by
  by_cases hrc : (bcrypt password salt encrypted sizeofEncrypted).1 = 0
  · by_cases hcmp : strcmp hash (bcrypt password salt encrypted sizeofEncrypted).2 = some 0
    · rw [((main_exit_returned_iff bcrypt argc argv encrypted 0).2 ⟨rfl, hrc, hcmp⟩)]
      simp
    · rw [main_of_strcmp_ne_zero bcrypt argc argv encrypted hrc hsize hcmp]
      simp
  · rw [main_of_status_ne_zero bcrypt argc argv encrypted hrc]
    simp

/-- Witness for `main_reads_within_encrypted`: a `bcrypt` that reports
success and leaves the buffer of 61 non-zero bytes as it was. -/
theorem main_reads_within_encrypted_witness :
    ((fun _ _ e _ => (0, e) : Bcrypt) password salt sevens sizeofEncrypted).2.length =
      sizeofEncrypted ∧
    (main (fun _ _ e _ => (0, e)) 1 0 sevens).exit ≠ Exit.undefined :=
  ⟨by decide, main_reads_within_encrypted (fun _ _ e _ => (0, e)) 1 0 sevens (by decide)⟩

/-- The exit of `main` is a function of what `bcrypt` reports: two runs in
which `bcrypt` returns the same status and leaves the same NUL-terminated
string in the 61-byte buffer end the same way. -/
theorem main_exit_determined (b1 b2 : Bcrypt) (argc1 argc2 : Int) (argv1 argv2 : Nat)
    (e1 e2 : List Nat)
    (hsize1 : (b1 password salt e1 sizeofEncrypted).2.length = sizeofEncrypted)
    (hsize2 : (b2 password salt e2 sizeofEncrypted).2.length = sizeofEncrypted)
    (hrc : (b1 password salt e1 sizeofEncrypted).1 = (b2 password salt e2 sizeofEncrypted).1)
    (hstr : cstring (b1 password salt e1 sizeofEncrypted).2 =
      cstring (b2 password salt e2 sizeofEncrypted).2) :
    (main b1 argc1 argv1 e1).exit = (main b2 argc2 argv2 e2).exit := by
  by_cases h2 : (b2 password salt e2 sizeofEncrypted).1 = 0
  · have h1 : (b1 password salt e1 sizeofEncrypted).1 = 0 := by rw [hrc, h2]
    by_cases hcmp : strcmp hash (b2 password salt e2 sizeofEncrypted).2 = some 0
    · have hcmp1 : strcmp hash (b1 password salt e1 sizeofEncrypted).2 = some 0 := by
        rw [strcmp_hash_eq_zero_iff_cstring] at hcmp ⊢
        rw [hstr, hcmp]
      rw [(main_exit_returned_iff b1 argc1 argv1 e1 0).2 ⟨rfl, h1, hcmp1⟩,
        (main_exit_returned_iff b2 argc2 argv2 e2 0).2 ⟨rfl, h2, hcmp⟩]
    · have hcmp1 : strcmp hash (b1 password salt e1 sizeofEncrypted).2 ≠ some 0 := by
        intro h
        apply hcmp
        rw [strcmp_hash_eq_zero_iff_cstring] at h ⊢
        rw [← hstr]
        exact h
      rw [main_of_strcmp_ne_zero b1 argc1 argv1 e1 h1 hsize1 hcmp1,
        main_of_strcmp_ne_zero b2 argc2 argv2 e2 h2 hsize2 hcmp]
  · have h1 : (b1 password salt e1 sizeofEncrypted).1 ≠ 0 := by rw [hrc]; exact h2
    rw [main_of_status_ne_zero b1 argc1 argv1 e1 h1,
      main_of_status_ne_zero b2 argc2 argv2 e2 h2]

/-- Witness for `main_exit_determined`: the two sample behaviours that store
the reference string, started from different buffer contents. -/
theorem main_exit_determined_witness :
    (main bcryptStoresHash 1 0 sevens).exit =
      (main bcryptKeepsTail 2 8 (List.replicate 61 0)).exit :=
  main_exit_determined bcryptStoresHash bcryptKeepsTail 1 2 0 8 sevens (List.replicate 61 0)
    (by decide) (by decide) (by decide) (by decide)

end Comeonin
